import Mathlib

/-!
Verification of the YoY analysis engine (backend/app/analysis.py).

The engine is embedded shallowly: numeric cells are rationals (the claims under
study concern the zero/null case analysis of the percentage formulas, which is
exact arithmetic); a missing or non-numeric cell is `none` and is coerced to 0
exactly where the source applies to_numeric(...).fillna(0).  Month columns keep
their source label, month and year; the source's datetime sort key is embedded
as year*12+month, which orders identically for the parsed months (1..12).
-/

namespace YoY

/-- One recognized month column: source label, calendar month (1..12 for every
column the recognizer produces) and 4-digit year. -/
structure MonthColumn where
  col : String
  month : Nat
  year : Nat
  deriving DecidableEq

/-- Chronological sort key, `year*12+month`; mirrors sorting by
datetime(year, month, 1) for months in 1..12. -/
def keyOf (m : MonthColumn) : Nat := m.year * 12 + m.month

/-- Left-pad a numeral with zeros to width k, as the source's format strings do. -/
def padZeros (k : Nat) (n : Nat) : String :=
  String.mk (List.replicate (k - (toString n).length) '0') ++ toString n

/-- The "YYYY-MM" key of a month column (_month_key). -/
def monthKey (m : MonthColumn) : String := padZeros 4 m.year ++ "-" ++ padZeros 2 m.month

/-- Find the first recognized column with the given calendar year and month
(_find_month_by_key; key strings are injective in (year, month) for the parsed
ranges, so the comparison is done on the pair directly). -/
def findMonthByKey (cols : List MonthColumn) (y mo : Nat) : Option MonthColumn :=
  cols.find? (fun c => decide (c.year = y ∧ c.month = mo))

/-- The ytd branch of _period_columns, given the sorted column list and the
anchor: current = anchor-year months up to the anchor month, previous = the
same filter one year back; fails unless the two lists have equal non-zero
length. -/
def ytdResolve (cols : List MonthColumn) (sel : MonthColumn) :
    Option (List MonthColumn × List MonthColumn) :=
  let curr := cols.filter (fun m => decide (m.year = sel.year ∧ m.month ≤ sel.month))
  let prev := cols.filter (fun m => decide (m.year = sel.year - 1 ∧ m.month ≤ sel.month))
  if prev.length = curr.length ∧ prev ≠ [] then some (curr, prev) else none

/-- The prior-year lookup loop of the rolling branch: for each window month,
find the same calendar month one year back; any miss fails the whole window. -/
def findPrevAll (cols : List MonthColumn) : List MonthColumn → Option (List MonthColumn)
  | [] => some []
  | m :: rest =>
    match findMonthByKey cols (m.year - 1) m.month, findPrevAll cols rest with
    | some p, some ps => some (p :: ps)
    | _, _ => none

/-- The slice month_cols[idx-window+1 : idx+1] of the rolling branch. -/
def rollingWindow (cols : List MonthColumn) (window idx : Nat) : List MonthColumn :=
  (cols.take (idx + 1)).drop (idx + 1 - window)

/-- The rolling3/rolling6 branch of _period_columns, with the anchor given by
its position idx in the sorted list. -/
def rollingResolve (cols : List MonthColumn) (window idx : Nat) :
    Option (List MonthColumn × List MonthColumn) :=
  if idx + 1 < window then none
  else
    match findPrevAll cols (rollingWindow cols window idx) with
    | some ps => some (rollingWindow cols window idx, ps)
    | none => none

/-- One sanitized data row: entity name plus its cells, keyed by column label;
a cell is none when the source value is missing or non-numeric. -/
structure DataRow where
  cliente : String
  cells : List (String × Option ℚ)
  deriving DecidableEq

/-- Numeric value of a cell after pd.to_numeric(...).fillna(0): missing or
non-numeric cells are coerced to 0. -/
def cellValue (r : DataRow) (c : String) : ℚ :=
  (Option.join (r.cells.lookup c)).getD 0

/-- Sum of a row's values over a resolved column list (Current_Sum /
Previous_Sum). -/
def sumCols (r : DataRow) (cols : List MonthColumn) : ℚ :=
  (cols.map (fun m => cellValue r m.col)).sum

/-- The row-level percentage-variance rule of analyze_yoy (lines 349-355):
formula when the previous sum is nonzero, 0 when both sums are zero, null
otherwise. -/
def varPctRule (prevSum currSum : ℚ) : Option ℚ :=
  if prevSum ≠ 0 then some ((currSum - prevSum) / prevSum * 100)
  else if currSum = 0 then some 0 else none

/-- A row's derived metrics. -/
structure MetricRow where
  cliente : String
  prevSum : ℚ
  currSum : ℚ
  varAbs : ℚ
  impact : ℚ
  varPct : Option ℚ
  deriving DecidableEq

/-- Derivation of the per-row metrics from the resolved columns
(analyze_yoy lines 342-356). -/
def computeMetrics (currCols prevCols : List MonthColumn) (r : DataRow) : MetricRow :=
  let c := sumCols r currCols
  let p := sumCols r prevCols
  { cliente := r.cliente, prevSum := p, currSum := c, varAbs := c - p,
    impact := |c - p|, varPct := varPctRule p c }

/-- summary.totalVarPct (analyze_yoy lines 404-407): the percentage formula on
the filtered totals when the previous total is strictly positive, else 0. -/
def totalVarPct (rows : List MetricRow) : ℚ :=
  if 0 < (rows.map MetricRow.prevSum).sum then
    ((rows.map MetricRow.currSum).sum - (rows.map MetricRow.prevSum).sum)
      / (rows.map MetricRow.prevSum).sum * 100
  else 0

/-- Descending order on a projected key; sort_values(key, ascending=False)
guarantees exactly sortedness under this relation. -/
def keyGe {α β : Type} [LinearOrder β] (f : α → β) (a b : α) : Prop := f b ≤ f a

instance {α β : Type} [LinearOrder β] (f : α → β) : DecidableRel (keyGe f) :=
  fun a b => inferInstanceAs (Decidable (f b ≤ f a))

instance {α β : Type} [LinearOrder β] (f : α → β) : IsTotal α (keyGe f) :=
  ⟨fun a b => (le_total (f b) (f a)).imp id id⟩

instance {α β : Type} [LinearOrder β] (f : α → β) : IsTrans α (keyGe f) :=
  ⟨fun _ _ _ hab hbc => le_trans hbc hab⟩

/-- Ascending order on a projected key. -/
def keyLe {α β : Type} [LinearOrder β] (f : α → β) (a b : α) : Prop := f a ≤ f b

instance {α β : Type} [LinearOrder β] (f : α → β) : DecidableRel (keyLe f) :=
  fun a b => inferInstanceAs (Decidable (f a ≤ f b))

instance {α β : Type} [LinearOrder β] (f : α → β) : IsTotal α (keyLe f) :=
  ⟨fun a b => le_total (f a) (f b)⟩

instance {α β : Type} [LinearOrder β] (f : α → β) : IsTrans α (keyLe f) :=
  ⟨fun _ _ _ hab hbc => le_trans hab hbc⟩

/-- Alert predicate: Var_% < threshold; a null percentage compares false, as a
NaN comparison does in the source. -/
def alertP (t : ℚ) (r : MetricRow) : Bool :=
  match r.varPct with
  | some v => decide (v < t)
  | none => false

/-- Growth predicate: Var_Absoluta > 3000 or Var_% > 50 (null compares false). -/
def growthP (r : MetricRow) : Bool :=
  decide (3000 < r.varAbs) ||
    (match r.varPct with
     | some v => decide (50 < v)
     | none => false)

/-- New-accounts predicate: Previous_Sum == 0 and Current_Sum > 0. -/
def newP (r : MetricRow) : Bool := decide (r.prevSum = 0 ∧ 0 < r.currSum)

/-- Lost-accounts predicate: Previous_Sum > 0 and Current_Sum == 0. -/
def lostP (r : MetricRow) : Bool := decide (0 < r.prevSum ∧ r.currSum = 0)

/-- Alerts bucket (analyze_yoy line 409), sorted by impact descending. -/
def alertsTable (t : ℚ) (rows : List MetricRow) : List MetricRow :=
  List.insertionSort (keyGe MetricRow.impact) (rows.filter (alertP t))

/-- Growth bucket (line 410), sorted by absolute variance descending. -/
def growthTable (rows : List MetricRow) : List MetricRow :=
  List.insertionSort (keyGe MetricRow.varAbs) (rows.filter growthP)

/-- New-accounts bucket (line 411), sorted by current sum descending. -/
def newTable (rows : List MetricRow) : List MetricRow :=
  List.insertionSort (keyGe MetricRow.currSum) (rows.filter newP)

/-- Lost-accounts bucket (line 412), sorted by previous sum descending. -/
def lostTable (rows : List MetricRow) : List MetricRow :=
  List.insertionSort (keyGe MetricRow.prevSum) (rows.filter lostP)

/-- Single-month YoY percentage of the two-period classifier (lines 500-501):
null when the prior-year value is zero (np.nan branch). -/
def yoyPct (curr prevYear : ℚ) : Option ℚ :=
  if prevYear ≠ 0 then some ((curr - prevYear) / prevYear * 100) else none

/-- One row of the two-period classification. -/
structure IARow where
  cliente : String
  varLast : Option ℚ
  varPrev : Option ℚ
  deriving DecidableEq

/-- Persistent-decline condition (line 511): both percentages present and each
at most the persistence threshold. -/
def persistP (pt : ℚ) (x : IARow) : Bool :=
  match x.varLast, x.varPrev with
  | some a, some b => decide (a ≤ pt ∧ b ≤ pt)
  | _, _ => false

/-- Recovery condition (line 512): both percentages present, the prior month at
most the persistence threshold, the latest at least the recovery threshold. -/
def recoverP (pt rt : ℚ) (x : IARow) : Bool :=
  match x.varLast, x.varPrev with
  | some a, some b => decide (b ≤ pt ∧ rt ≤ a)
  | _, _ => false

/-- Per-row two-period percentages (lines 495-507). -/
def iaRow (latest latestPrev prevM prevPrev : MonthColumn) (r : DataRow) : IARow :=
  { cliente := r.cliente,
    varLast := yoyPct (cellValue r latest.col) (cellValue r latestPrev.col),
    varPrev := yoyPct (cellValue r prevM.col) (cellValue r prevPrev.col) }

/-- The two-period classifier (analyze_yoy lines 488-515): requires at least
two recognized months whose latest two both have prior-year counterparts, else
both lists are empty. -/
def intelligentAlerts (cols : List MonthColumn) (rows : List DataRow) (pt rt : ℚ) :
    List IARow × List IARow :=
  if 2 ≤ cols.length then
    match cols[cols.length - 1]?, cols[cols.length - 2]? with
    | some latest, some prevM =>
      match findMonthByKey cols (latest.year - 1) latest.month,
            findMonthByKey cols (prevM.year - 1) prevM.month with
      | some lp, some pp =>
        let xs := rows.map (iaRow latest lp prevM pp)
        (xs.filter (persistP pt), xs.filter (recoverP pt rt))
      | _, _ => ([], [])
    | _, _ => ([], [])
  else ([], [])

/-- Threshold defaulting (lines 484-485): persistence defaults to the alert
threshold, recovery to 0. -/
def resolveThresholds (t : ℚ) (pt rt : Option ℚ) : ℚ × ℚ := (pt.getD t, rt.getD 0)

/-- Drop leading and trailing whitespace, as Python str.strip does. -/
def stripW (cs : List Char) : List Char :=
  (((cs.dropWhile Char.isWhitespace).reverse).dropWhile Char.isWhitespace).reverse

/-- Cluster key of an entity name: text before the first colon, stripped
(analyze_yoy line 359; split(":")[0] is the run of characters before the
first colon, the whole name when there is none). -/
def clusterOf (name : String) : String :=
  String.mk (stripW (name.data.takeWhile (fun ch => ch ≠ ':')))

/-- One group of a rollup. -/
structure GroupRow where
  key : String
  prevSum : ℚ
  currSum : ℚ
  varAbs : ℚ
  varPct : Option ℚ
  deriving DecidableEq

/-- Group-level percentage rule used by all three rollups (lines 441-445,
523-527, 546-550): (curr/prev - 1)*100 when the summed previous is nonzero,
np.nan (null after sanitizing) otherwise. -/
def groupVarPct (p c : ℚ) : Option ℚ :=
  if p ≠ 0 then some ((c / p - 1) * 100) else none

/-- A rollup: group the rows by a key, sum the three amounts per group, apply
the group-level percentage rule, sort by summed absolute variance descending. -/
def groupRollup (f : MetricRow → String) (rows : List MetricRow) : List GroupRow :=
  List.insertionSort (keyGe GroupRow.varAbs)
    (((rows.map f).dedup).map (fun k =>
      { key := k,
        prevSum := ((rows.filter (fun r => f r == k)).map MetricRow.prevSum).sum,
        currSum := ((rows.filter (fun r => f r == k)).map MetricRow.currSum).sum,
        varAbs := ((rows.filter (fun r => f r == k)).map MetricRow.varAbs).sum,
        varPct := groupVarPct ((rows.filter (fun r => f r == k)).map MetricRow.prevSum).sum
          ((rows.filter (fun r => f r == k)).map MetricRow.currSum).sum }))

/-- Per-month activity flags of a row over all recognized months, in
chronological order (sales > 0, line 564). -/
def activeMonths (cols : List MonthColumn) (r : DataRow) : List Bool :=
  cols.map (fun m => decide (0 < cellValue r m.col))

/-- Index of the first true flag, as np.argmax finds it over a boolean row. -/
def firstTrue : List Bool → Option Nat
  | [] => none
  | b :: rest => if b then some 0 else (firstTrue rest).map (· + 1)

/-- Months inactive (lines 563-568): position of the latest active month
counted from the latest recognized month; the full month count when the row
was never active. -/
def monthsInactive (cols : List MonthColumn) (r : DataRow) : Nat :=
  match firstTrue (activeMonths cols r).reverse with
  | some i => i
  | none => cols.length

/-- Churn output (line 575): rows whose months inactive reach the configured
bound, inclusively. -/
def churnTable (cols : List MonthColumn) (churnMonths : Nat) (rows : List DataRow) :
    List DataRow :=
  rows.filter (fun r => decide (churnMonths ≤ monthsInactive cols r))

/-- Follows the spec's words in section 4.6 for a never-active row:
"monthsInactive = (distance from the earliest to the latest recognized month)
+ 1"; stated for comparison with the code's value, which is the column count. -/
def specNeverActiveInactive (cols : List MonthColumn) : Nat :=
  match cols.head?, cols.getLast? with
  | some e, some l => keyOf l - keyOf e + 1
  | _, _ => 0

/-- Rounding to one decimal, as the cohort builder applies it.  (Python rounds
half to even while this rounds half away from the floor; the two differ only at
exact half-decimals, which the claims under study never touch: the base-month
ratio is exactly 100.) -/
def round1 (x : ℚ) : ℚ := (round (10 * x) : ℤ) / 10

/-- First recognized month with strictly positive value (lines 580-587). -/
def firstActive (cols : List MonthColumn) (r : DataRow) : Option MonthColumn :=
  cols.find? (fun m => decide (0 < cellValue r m.col))

/-- The cohort keys, in order of first appearance across rows (cohort_map
insertion order). -/
def cohortKeys (cols : List MonthColumn) (rows : List DataRow) : List String :=
  ((rows.filterMap (firstActive cols)).map monthKey).dedup

/-- The member rows of a cohort. -/
def cohortMembers (cols : List MonthColumn) (rows : List DataRow) (k : String) :
    List DataRow :=
  rows.filter (fun r => ((firstActive cols r).map monthKey) == some k)

/-- The cohort's base month: the first recognized column with the cohort's key
(line 599). -/
def cohortBase (cols : List MonthColumn) (k : String) : Option MonthColumn :=
  cols.find? (fun m => monthKey m == k)

/-- The cohort's base revenue: members' values summed over the base column
(line 600). -/
def cohortBaseRev (cols : List MonthColumn) (rows : List DataRow) (k : String) : ℚ :=
  match cohortBase cols k with
  | some b => ((cohortMembers cols rows k).map (fun r => cellValue r b.col)).sum
  | none => 0

/-- Per-month cohort revenue percentages (lines 603-616): no value before the
base month; otherwise the month's summed revenue over the base revenue, or 0
when the base revenue is not positive, rounded to one decimal. -/
def cohortRevenueSeq (cols : List MonthColumn) (base : MonthColumn)
    (members : List DataRow) : List (Option ℚ) :=
  cols.map (fun mc =>
    if keyOf mc < keyOf base then none
    else some (round1
      (if 0 < (members.map (fun r => cellValue r base.col)).sum then
        ((members.map (fun r => cellValue r mc.col)).sum)
          / ((members.map (fun r => cellValue r base.col)).sum) * 100
      else 0)))

/-- Per-month cohort activity percentages (lines 603-615). -/
def cohortActiveSeq (cols : List MonthColumn) (base : MonthColumn)
    (members : List DataRow) : List (Option ℚ) :=
  cols.map (fun mc =>
    if keyOf mc < keyOf base then none
    else some (round1
      ((members.countP (fun r => decide (0 < cellValue r mc.col)) : ℚ)
        / (members.length : ℚ) * 100)))

/-- One cohort of the output. -/
structure CohortRow where
  cohort : String
  size : Nat
  active : List (Option ℚ)
  revenue : List (Option ℚ)
  deriving DecidableEq

/-- The cohort rows before sorting (lines 593-622). -/
def cohortRowsOf (cols : List MonthColumn) (rows : List DataRow) : List CohortRow :=
  (cohortKeys cols rows).filterMap (fun k =>
    (cohortBase cols k).map (fun base =>
      { cohort := k, size := (cohortMembers cols rows k).length,
        active := cohortActiveSeq cols base (cohortMembers cols rows k),
        revenue := cohortRevenueSeq cols base (cohortMembers cols rows k) }))

/-- The cohort output, sorted by cohort key ascending (line 624). -/
def cohortsSorted (cols : List MonthColumn) (rows : List DataRow) : List CohortRow :=
  List.insertionSort (keyLe CohortRow.cohort) (cohortRowsOf cols rows)

/-! Helper characterizations of the bucket predicates. -/

theorem alertP_iff (t : ℚ) (x : MetricRow) :
    alertP t x = true ↔ ∃ v, x.varPct = some v ∧ v < t := by
  cases h : x.varPct <;> simp [alertP, h]

theorem growthP_iff (x : MetricRow) :
    growthP x = true ↔ 3000 < x.varAbs ∨ ∃ v, x.varPct = some v ∧ 50 < v := by
  cases h : x.varPct <;> simp [growthP, h]

theorem newP_iff (x : MetricRow) :
    newP x = true ↔ x.prevSum = 0 ∧ 0 < x.currSum := by
  simp [newP]

theorem lostP_iff (x : MetricRow) :
    lostP x = true ↔ 0 < x.prevSum ∧ x.currSum = 0 := by
  simp [lostP]

/-- C1: for every sanitized row, with currentSum and previousSum the sums of
the resolved current/previous columns (missing or non-numeric cells coerced to
0), varPct is (currentSum - previousSum) / previousSum * 100 when previousSum
is nonzero, 0 when both sums are zero, and null when previousSum is zero but
currentSum is not; concretely 0/0 gives 0, 0/100 gives null, 100/50 gives
-50.0. -/
theorem c1_var_pct_rule :
    (∀ (currCols prevCols : List MonthColumn) (r : DataRow),
      computeMetrics currCols prevCols r =
        { cliente := r.cliente, prevSum := sumCols r prevCols,
          currSum := sumCols r currCols,
          varAbs := sumCols r currCols - sumCols r prevCols,
          impact := |sumCols r currCols - sumCols r prevCols|,
          varPct := varPctRule (sumCols r prevCols) (sumCols r currCols) }) ∧
    (∀ p c : ℚ, p ≠ 0 → varPctRule p c = some ((c - p) / p * 100)) ∧
    (∀ p c : ℚ, p = 0 → c = 0 → varPctRule p c = some 0) ∧
    (∀ p c : ℚ, p = 0 → c ≠ 0 → varPctRule p c = none) ∧
    varPctRule 0 0 = some 0 ∧ varPctRule 0 100 = none ∧
    varPctRule 100 50 = some (-50) := by
  refine ⟨fun _ _ _ => rfl, fun p c hp => by simp [varPctRule, hp],
    fun p c hp hc => by simp [varPctRule, hp, hc],
    fun p c hp hc => by simp [varPctRule, hp, hc], ?_, ?_, ?_⟩
  · simp [varPctRule]
  · simp [varPctRule]
  · rw [varPctRule]
    norm_num

theorem c1_witness : varPctRule 80 40 = some ((40 - 80) / 80 * 100) :=
  c1_var_pct_rule.2.1 80 40 (by norm_num)

/-- Example row with zero previous sum and nonzero current sum. -/
def c9zrow : MetricRow :=
  { cliente := "a", prevSum := 0, currSum := 70, varAbs := 70, impact := 70,
    varPct := none }

/-- Example row with negative previous sum. -/
def c9nrow : MetricRow :=
  { cliente := "b", prevSum := -5, currSum := 10, varAbs := 15, impact := 15,
    varPct := some (-300) }

/-- Example row of the C9 witness. -/
def c9wrow : MetricRow :=
  { cliente := "w", prevSum := 100, currSum := 150, varAbs := 50, impact := 50,
    varPct := varPctRule 100 150 }

/-- C9: summary.totalVarPct applies the percentage formula to the filtered
totals only when the total previous sum is strictly positive, and is 0
whenever it is zero or negative — including zero previous with nonzero current
(where the row rule gives null) and negative previous (where the formula would
yield a value). -/
theorem c9_total_var_pct :
    (∀ rows : List MetricRow,
      (0 < (rows.map MetricRow.prevSum).sum →
        totalVarPct rows =
          ((rows.map MetricRow.currSum).sum - (rows.map MetricRow.prevSum).sum)
            / (rows.map MetricRow.prevSum).sum * 100) ∧
      ((rows.map MetricRow.prevSum).sum ≤ 0 → totalVarPct rows = 0)) ∧
    totalVarPct [c9zrow] = 0 ∧
    totalVarPct [c9nrow] = 0 := by
  refine ⟨fun rows => ⟨fun h => ?_, fun h => ?_⟩, ?_, ?_⟩
  · rw [totalVarPct, if_pos h]
  · rw [totalVarPct, if_neg (not_lt.mpr h)]
  · norm_num [totalVarPct, c9zrow]
  · norm_num [totalVarPct, c9nrow]

theorem c9_witness :
    totalVarPct [c9wrow] =
      (([c9wrow].map MetricRow.currSum).sum - ([c9wrow].map MetricRow.prevSum).sum)
        / ([c9wrow].map MetricRow.prevSum).sum * 100 :=
  (c9_total_var_pct.1 [c9wrow]).1 (by norm_num [c9wrow])

/-- C10: a filtered row whose varPct is null never enters the alerts bucket,
for any threshold, and enters the growth bucket exactly when its absolute
variance exceeds 3000 (the percentage branch never selects a null row). -/
theorem c10_null_rows (t : ℚ) (rows : List MetricRow) (x : MetricRow)
    (hx : x ∈ rows) (hnull : x.varPct = none) :
    x ∉ alertsTable t rows ∧ (x ∈ growthTable rows ↔ 3000 < x.varAbs) := by
  constructor
  · intro hmem
    rw [alertsTable, List.mem_insertionSort, List.mem_filter] at hmem
    obtain ⟨v, hv, _⟩ := (alertP_iff t x).mp hmem.2
    rw [hnull] at hv
    cases hv
  · rw [growthTable, List.mem_insertionSort, List.mem_filter]
    constructor
    · rintro ⟨-, hg⟩
      rcases (growthP_iff x).mp hg with h | ⟨v, hv, -⟩
      · exact h
      · rw [hnull] at hv
        cases hv
    · intro h
      exact ⟨hx, (growthP_iff x).mpr (Or.inl h)⟩

/-- Example row of the C10 witness. -/
def c10row : MetricRow :=
  { cliente := "n", prevSum := 0, currSum := 5000, varAbs := 5000,
    impact := 5000, varPct := none }

theorem c10_witness :
    c10row ∉ alertsTable (-30) [c10row] ∧
      (c10row ∈ growthTable [c10row] ↔ 3000 < c10row.varAbs) :=
  c10_null_rows (-30) [c10row] c10row (by simp) rfl

/-- The boundary example row of C4: previous 100, current 150, so varAbs is 50
and varPct exactly 50. -/
def c4exRow : MetricRow :=
  { cliente := "Acme", prevSum := 100, currSum := 150, varAbs := 50,
    impact := 50, varPct := varPctRule 100 150 }

/-- Growth example row of the C4 witness. -/
def c4gRow : MetricRow :=
  { cliente := "G", prevSum := 100, currSum := 5000, varAbs := 4900,
    impact := 4900, varPct := varPctRule 100 5000 }

/-- C4: each single-period bucket holds exactly the filtered rows satisfying
its predicate — alerts varPct < threshold sorted by impact descending, growth
varAbs > 3000 or varPct > 50 sorted by varAbs descending, new previous 0 and
current > 0 sorted by current descending, lost previous > 0 and current 0
sorted by previous descending; both growth bounds are strict, so a row with
varPct exactly 50 and varAbs 50 (previous 100, current 150) is in neither
alerts at threshold -30 nor growth. -/
theorem c4_buckets :
    (∀ (t : ℚ) (rows : List MetricRow),
      List.Perm (alertsTable t rows) (rows.filter (alertP t)) ∧
      List.Sorted (keyGe MetricRow.impact) (alertsTable t rows) ∧
      (∀ x, x ∈ alertsTable t rows ↔ x ∈ rows ∧ ∃ v, x.varPct = some v ∧ v < t)) ∧
    (∀ rows : List MetricRow,
      List.Perm (growthTable rows) (rows.filter growthP) ∧
      List.Sorted (keyGe MetricRow.varAbs) (growthTable rows) ∧
      (∀ x, x ∈ growthTable rows ↔
        x ∈ rows ∧ (3000 < x.varAbs ∨ ∃ v, x.varPct = some v ∧ 50 < v))) ∧
    (∀ rows : List MetricRow,
      List.Perm (newTable rows) (rows.filter newP) ∧
      List.Sorted (keyGe MetricRow.currSum) (newTable rows) ∧
      (∀ x, x ∈ newTable rows ↔ x ∈ rows ∧ x.prevSum = 0 ∧ 0 < x.currSum)) ∧
    (∀ rows : List MetricRow,
      List.Perm (lostTable rows) (rows.filter lostP) ∧
      List.Sorted (keyGe MetricRow.prevSum) (lostTable rows) ∧
      (∀ x, x ∈ lostTable rows ↔ x ∈ rows ∧ 0 < x.prevSum ∧ x.currSum = 0)) ∧
    (varPctRule 100 150 = some 50 ∧
      c4exRow ∉ alertsTable (-30) [c4exRow] ∧ c4exRow ∉ growthTable [c4exRow]) := by
  have hpct : c4exRow.varPct = some 50 := by
    show varPctRule 100 150 = some 50
    rw [varPctRule]
    norm_num
  refine ⟨fun t rows => ⟨List.perm_insertionSort _ _, List.sorted_insertionSort _ _,
      fun x => by rw [alertsTable, List.mem_insertionSort, List.mem_filter, alertP_iff]⟩,
    fun rows => ⟨List.perm_insertionSort _ _, List.sorted_insertionSort _ _,
      fun x => by rw [growthTable, List.mem_insertionSort, List.mem_filter, growthP_iff]⟩,
    fun rows => ⟨List.perm_insertionSort _ _, List.sorted_insertionSort _ _,
      fun x => by rw [newTable, List.mem_insertionSort, List.mem_filter, newP_iff]⟩,
    fun rows => ⟨List.perm_insertionSort _ _, List.sorted_insertionSort _ _,
      fun x => by rw [lostTable, List.mem_insertionSort, List.mem_filter, lostP_iff]⟩,
    hpct, ?_, ?_⟩
  · intro hmem
    rw [alertsTable, List.mem_insertionSort, List.mem_filter] at hmem
    obtain ⟨v, hv, hlt⟩ := (alertP_iff _ _).mp hmem.2
    rw [hpct] at hv
    injection hv with hv
    subst hv
    norm_num at hlt
  · intro hmem
    rw [growthTable, List.mem_insertionSort, List.mem_filter] at hmem
    rcases (growthP_iff _).mp hmem.2 with h | ⟨v, hv, hlt⟩
    · have : c4exRow.varAbs = 50 := rfl
      rw [this] at h
      norm_num at h
    · rw [hpct] at hv
      injection hv with hv
      subst hv
      norm_num at hlt

theorem c4_witness : c4gRow ∈ growthTable [c4gRow] :=
  ((c4_buckets.2.1 [c4gRow]).2.2 c4gRow).mpr
    ⟨by simp, Or.inl (by norm_num [c4gRow])⟩

/-! Helper characterizations of the two-period predicates. -/

theorem persistP_iff (pt : ℚ) (x : IARow) :
    persistP pt x = true ↔
      ∃ a b, x.varLast = some a ∧ x.varPrev = some b ∧ a ≤ pt ∧ b ≤ pt := by
  cases hl : x.varLast <;> cases hp : x.varPrev <;> simp [persistP, hl, hp]

theorem recoverP_iff (pt rt : ℚ) (x : IARow) :
    recoverP pt rt x = true ↔
      ∃ a b, x.varLast = some a ∧ x.varPrev = some b ∧ b ≤ pt ∧ rt ≤ a := by
  cases hl : x.varLast <;> cases hp : x.varPrev <;> simp [recoverP, hl, hp]

/-- C5: when at least two months are recognized and the latest two both have
prior-year counterparts, each filtered row gets independent YoY percentages
for those two months (null on a zero prior-year value); rows with either value
null are excluded from both classifications; persistent holds exactly the rows
with both percentages at most the persistence threshold, recovery exactly
those with the prior percentage at most it and the latest at least the
recovery threshold, and a row meeting both conditions appears in both; the
persistence threshold defaults to the alert threshold and the recovery
threshold to 0. -/
theorem c5_two_period (cols : List MonthColumn) (rows : List DataRow) (pt rt : ℚ)
    (latest prevM lp pp : MonthColumn)
    (h2 : 2 ≤ cols.length)
    (hl : cols[cols.length - 1]? = some latest)
    (hp : cols[cols.length - 2]? = some prevM)
    (hlp : findMonthByKey cols (latest.year - 1) latest.month = some lp)
    (hpp : findMonthByKey cols (prevM.year - 1) prevM.month = some pp) :
    (∀ x, x ∈ (intelligentAlerts cols rows pt rt).1 ↔
      x ∈ rows.map (iaRow latest lp prevM pp) ∧
        ∃ a b, x.varLast = some a ∧ x.varPrev = some b ∧ a ≤ pt ∧ b ≤ pt) ∧
    (∀ x, x ∈ (intelligentAlerts cols rows pt rt).2 ↔
      x ∈ rows.map (iaRow latest lp prevM pp) ∧
        ∃ a b, x.varLast = some a ∧ x.varPrev = some b ∧ b ≤ pt ∧ rt ≤ a) ∧
    (∀ x, x.varLast = none ∨ x.varPrev = none →
      x ∉ (intelligentAlerts cols rows pt rt).1 ∧
        x ∉ (intelligentAlerts cols rows pt rt).2) ∧
    (∀ x ∈ rows.map (iaRow latest lp prevM pp), ∀ a b,
      x.varLast = some a → x.varPrev = some b → a ≤ pt → b ≤ pt → rt ≤ a →
      x ∈ (intelligentAlerts cols rows pt rt).1 ∧
        x ∈ (intelligentAlerts cols rows pt rt).2) ∧
    (∀ c : ℚ, yoyPct c 0 = none) ∧
    (∀ t : ℚ, resolveThresholds t none none = (t, 0)) := by
  have hIA : intelligentAlerts cols rows pt rt =
      ((rows.map (iaRow latest lp prevM pp)).filter (persistP pt),
        (rows.map (iaRow latest lp prevM pp)).filter (recoverP pt rt)) := by
    rw [intelligentAlerts, if_pos h2, hl, hp]
    simp only [hlp, hpp]
  have hmem1 : ∀ x, x ∈ (intelligentAlerts cols rows pt rt).1 ↔
      x ∈ rows.map (iaRow latest lp prevM pp) ∧
        ∃ a b, x.varLast = some a ∧ x.varPrev = some b ∧ a ≤ pt ∧ b ≤ pt := by
    intro x
    rw [hIA]
    rw [List.mem_filter, persistP_iff]
  have hmem2 : ∀ x, x ∈ (intelligentAlerts cols rows pt rt).2 ↔
      x ∈ rows.map (iaRow latest lp prevM pp) ∧
        ∃ a b, x.varLast = some a ∧ x.varPrev = some b ∧ b ≤ pt ∧ rt ≤ a := by
    intro x
    rw [hIA]
    rw [List.mem_filter, recoverP_iff]
  refine ⟨hmem1, hmem2, fun x hx => ⟨fun hm => ?_, fun hm => ?_⟩,
    fun x hx a b ha hb h1 h2' h3 => ?_, fun c => by simp [yoyPct], fun t => rfl⟩
  · obtain ⟨-, a, b, ha, hb, -⟩ := (hmem1 x).mp hm
    rcases hx with h | h
    · rw [h] at ha
      cases ha
    · rw [h] at hb
      cases hb
  · obtain ⟨-, a, b, ha, hb, -⟩ := (hmem2 x).mp hm
    rcases hx with h | h
    · rw [h] at ha
      cases ha
    · rw [h] at hb
      cases hb
  · exact ⟨(hmem1 x).mpr ⟨hx, a, b, ha, hb, h1, h2'⟩,
      (hmem2 x).mpr ⟨hx, a, b, ha, hb, h2', h3⟩⟩

/-- Month columns of the C5 witness. -/
def c5cols : List MonthColumn :=
  [⟨"ene 2023", 1, 2023⟩, ⟨"feb 2023", 2, 2023⟩, ⟨"ene 2024", 1, 2024⟩,
    ⟨"feb 2024", 2, 2024⟩]

/-- Data row of the C5 witness: both months down more than 30 percent YoY. -/
def c5row : DataRow :=
  { cliente := "H",
    cells := [("feb 2024", some 30), ("ene 2024", some 40),
      ("feb 2023", some 100), ("ene 2023", some 100)] }

/-- Classified row of the C5 witness. -/
def c5x : IARow :=
  iaRow ⟨"feb 2024", 2, 2024⟩ ⟨"feb 2023", 2, 2023⟩ ⟨"ene 2024", 1, 2024⟩
    ⟨"ene 2023", 1, 2023⟩ c5row

theorem c5_witness :
    c5x ∈ (intelligentAlerts c5cols [c5row] (-30) (-100)).1 ∧
      c5x ∈ (intelligentAlerts c5cols [c5row] (-30) (-100)).2 := by
  have h := c5_two_period c5cols [c5row] (-30) (-100) ⟨"feb 2024", 2, 2024⟩
    ⟨"ene 2024", 1, 2024⟩ ⟨"feb 2023", 2, 2023⟩ ⟨"ene 2023", 1, 2023⟩
    (by decide) (by decide) (by decide) (by decide) (by decide)
  have hm : c5x ∈ [c5row].map (iaRow ⟨"feb 2024", 2, 2024⟩ ⟨"feb 2023", 2, 2023⟩
      ⟨"ene 2024", 1, 2024⟩ ⟨"ene 2023", 1, 2023⟩) := by
    simp [c5x]
  have d1 : cellValue c5row "feb 2024" = 30 := by decide
  have d2 : cellValue c5row "feb 2023" = 100 := by decide
  have d3 : cellValue c5row "ene 2024" = 40 := by decide
  have d4 : cellValue c5row "ene 2023" = 100 := by decide
  have hvL : c5x.varLast = some (-70) := by
    show yoyPct (cellValue c5row "feb 2024") (cellValue c5row "feb 2023") = some (-70)
    rw [d1, d2, yoyPct]
    norm_num
  have hvP : c5x.varPrev = some (-60) := by
    show yoyPct (cellValue c5row "ene 2024") (cellValue c5row "ene 2023") = some (-60)
    rw [d3, d4, yoyPct]
    norm_num
  exact h.2.2.2.1 c5x hm (-70) (-60) hvL hvP (by norm_num) (by norm_num) (by norm_num)

/-- First demo row of C6: cluster A, previous 100, current 200 (row-level
variance +100 percent). -/
def c6aRow : MetricRow :=
  { cliente := "A: x", prevSum := 100, currSum := 200, varAbs := 100,
    impact := 100, varPct := varPctRule 100 200 }

/-- Second demo row of C6: cluster A, previous 300, current 300 (row-level
variance 0 percent). -/
def c6bRow : MetricRow :=
  { cliente := "A: y", prevSum := 300, currSum := 300, varAbs := 0,
    impact := 0, varPct := varPctRule 300 300 }

/-- C6 amended: every group of a rollup carries the sums of its rows' previous,
current and absolute-variance values, and its percentage is computed from the
group sums — the formula when the summed previous is nonzero, null whenever the
summed previous is zero (also when the summed current is zero, unlike the
row-level rule) — and is not an average of row percentages: the demo group of
rows +100 percent and 0 percent gets 25 percent, from sums 400 and 500. -/
theorem c6_rollup_amended :
    (∀ (f : MetricRow → String) (rows : List MetricRow), ∀ e ∈ groupRollup f rows,
      e.prevSum = ((rows.filter (fun r => f r == e.key)).map MetricRow.prevSum).sum ∧
      e.currSum = ((rows.filter (fun r => f r == e.key)).map MetricRow.currSum).sum ∧
      e.varAbs = ((rows.filter (fun r => f r == e.key)).map MetricRow.varAbs).sum ∧
      (e.prevSum ≠ 0 → e.varPct = some ((e.currSum - e.prevSum) / e.prevSum * 100)) ∧
      (e.prevSum = 0 → e.varPct = none)) ∧
    (∀ e ∈ groupRollup (fun r => clusterOf r.cliente) [c6aRow, c6bRow],
      e.varPct = some 25) ∧
    varPctRule 100 200 = some 100 ∧ varPctRule 300 300 = some 0 := by
  have hgen : ∀ (f : MetricRow → String) (rows : List MetricRow),
      ∀ e ∈ groupRollup f rows,
      e.prevSum = ((rows.filter (fun r => f r == e.key)).map MetricRow.prevSum).sum ∧
      e.currSum = ((rows.filter (fun r => f r == e.key)).map MetricRow.currSum).sum ∧
      e.varAbs = ((rows.filter (fun r => f r == e.key)).map MetricRow.varAbs).sum ∧
      (e.prevSum ≠ 0 → e.varPct = some ((e.currSum - e.prevSum) / e.prevSum * 100)) ∧
      (e.prevSum = 0 → e.varPct = none) := by
    intro f rows e he
    rw [groupRollup, List.mem_insertionSort] at he
    obtain ⟨k, -, rfl⟩ := List.mem_map.mp he
    refine ⟨rfl, rfl, rfl, fun hp => ?_, fun hp => ?_⟩
    · show groupVarPct _ _ = _
      rw [groupVarPct, if_pos hp]
      congr 1
      field_simp
    · show groupVarPct _ _ = _
      rw [groupVarPct, if_neg (not_not_intro hp)]
  have hca : clusterOf "A: x" = "A" := by decide
  have hcb : clusterOf "A: y" = "A" := by decide
  refine ⟨hgen, ?_, by rw [varPctRule]; norm_num, by rw [varPctRule]; norm_num⟩
  intro e he
  rw [groupRollup, List.mem_insertionSort] at he
  obtain ⟨k, hk, rfl⟩ := List.mem_map.mp he
  rw [List.mem_dedup] at hk
  have hk' : k = "A" := by
    simpa [c6aRow, c6bRow, hca, hcb] using hk
  subst hk'
  have hfil : List.filter (fun r => (fun r => clusterOf r.cliente) r == "A")
      [c6aRow, c6bRow] = [c6aRow, c6bRow] := by
    simp [List.filter_cons, c6aRow, c6bRow, hca, hcb]
  show groupVarPct _ _ = some 25
  rw [hfil]
  rw [groupVarPct]
  norm_num [c6aRow, c6bRow]

/-- Demo row of the C6 counterexample: previous and current sums both zero. -/
def c6zRow : MetricRow :=
  { cliente := "Z", prevSum := 0, currSum := 0, varAbs := 0, impact := 0,
    varPct := varPctRule 0 0 }

/-- The group the C6 counterexample produces: percentage null, not 0. -/
def c6zEntry : GroupRow :=
  { key := "Z", prevSum := 0, currSum := 0, varAbs := 0, varPct := none }

theorem c6_counterexample :
    groupRollup (fun r => clusterOf r.cliente) [c6zRow] = [c6zEntry] ∧
    varPctRule 0 0 = some 0 ∧ (none : Option ℚ) ≠ some 0 := by
  have hz : clusterOf "Z" = "Z" := by decide
  refine ⟨?_, by simp [varPctRule], by simp⟩
  rw [groupRollup]
  norm_num [c6zRow, c6zEntry, hz, groupVarPct, List.dedup]

theorem c6_witness :
    (groupRollup (fun r => clusterOf r.cliente) [c6aRow, c6bRow]).all
      (fun e => e.varPct == some 25) = true := by
  rw [List.all_eq_true]
  intro e he
  have h := c6_rollup_amended.2.1 e he
  simp [h]

/-! Helper lemmas for the churn scan. -/

theorem firstTrue_eq_none (xs : List Bool) (h : ∀ b ∈ xs, b = false) :
    firstTrue xs = none := by
  induction xs with
  | nil => rfl
  | cons b rest ih =>
    simp [firstTrue, h b (List.mem_cons_self b rest),
      ih (fun x hx => h x (List.mem_cons_of_mem b hx))]

theorem firstTrue_append_false (xs ys : List Bool) (h : ∀ b ∈ xs, b = false) :
    firstTrue (xs ++ true :: ys) = some xs.length := by
  induction xs with
  | nil => simp [firstTrue]
  | cons b rest ih =>
    simp [firstTrue, h b (List.mem_cons_self b rest),
      ih (fun x hx => h x (List.mem_cons_of_mem b hx))]

/-- Twelve consecutive recognized months of 2023. -/
def c7cols12 : List MonthColumn :=
  [⟨"ene 2023", 1, 2023⟩, ⟨"feb 2023", 2, 2023⟩, ⟨"mar 2023", 3, 2023⟩,
    ⟨"abr 2023", 4, 2023⟩, ⟨"may 2023", 5, 2023⟩, ⟨"jun 2023", 6, 2023⟩,
    ⟨"jul 2023", 7, 2023⟩, ⟨"ago 2023", 8, 2023⟩, ⟨"sep 2023", 9, 2023⟩,
    ⟨"oct 2023", 10, 2023⟩, ⟨"nov 2023", 11, 2023⟩, ⟨"dic 2023", 12, 2023⟩]

/-- A row active only in the earliest of the twelve months. -/
def c7rowEarly : DataRow := { cliente := "E", cells := [("ene 2023", some 5)] }

/-- C7 amended: monthsInactive counts the recognized months strictly after the
row's latest active month (the length of the all-inactive suffix); a row never
active in any recognized month gets the total number of recognized months; a
row active only in the earliest of 12 recognized months gets 11; and the churn
output holds exactly the filtered rows whose monthsInactive reaches the bound,
inclusively. -/
theorem c7_churn_amended (cols : List MonthColumn) (r : DataRow)
    (rows : List DataRow) (cm : Nat) :
    ((∀ b ∈ activeMonths cols r, b = false) → monthsInactive cols r = cols.length) ∧
    (∀ front back, activeMonths cols r = front ++ true :: back →
      (∀ b ∈ back, b = false) → monthsInactive cols r = back.length) ∧
    (r ∈ churnTable cols cm rows ↔ r ∈ rows ∧ cm ≤ monthsInactive cols r) ∧
    monthsInactive c7cols12 c7rowEarly = 11 ∧
    churnTable c7cols12 11 [c7rowEarly] = [c7rowEarly] ∧
    churnTable c7cols12 12 [c7rowEarly] = [] := by
  refine ⟨fun h => ?_, fun front back heq hback => ?_, ?_, by decide, by decide, by decide⟩
  · rw [monthsInactive,
      firstTrue_eq_none _ (fun b hb => h b (List.mem_reverse.mp hb))]
  · rw [monthsInactive, heq, List.reverse_append, List.reverse_cons,
      List.append_assoc, List.singleton_append,
      firstTrue_append_false _ _ (fun b hb => hback b (List.mem_reverse.mp hb))]
    simp
  · simp [churnTable, List.mem_filter]

/-- Recognized months with a gap: no february. -/
def c7gapCols : List MonthColumn :=
  [⟨"ene 2023", 1, 2023⟩, ⟨"mar 2023", 3, 2023⟩, ⟨"abr 2023", 4, 2023⟩]

/-- A row with no cells at all, hence never active. -/
def c7never : DataRow := { cliente := "N", cells := [] }

theorem c7_counterexample :
    monthsInactive c7gapCols c7never = 3 ∧
    specNeverActiveInactive c7gapCols = 4 ∧ (3 : Nat) ≠ 4 := by
  refine ⟨by decide, by decide, by decide⟩

theorem c7_witness :
    c7rowEarly ∈ churnTable c7cols12 9 [c7rowEarly] ∧
      monthsInactive c7cols12 c7rowEarly = 11 := by
  have h := c7_churn_amended c7cols12 c7rowEarly [c7rowEarly] 9
  exact ⟨(h.2.2.1).mpr ⟨by decide, by decide⟩, h.2.2.2.1⟩

/-- Counting helper: with distinct (year, month) pairs and months at least 1,
the year-y months up to m are exactly m in number iff every month 1..m of year
y is recognized. -/
theorem count_complete (cols : List MonthColumn) (y m : Nat)
    (hnd : (cols.map (fun c => (c.year, c.month))).Nodup)
    (hm : ∀ c ∈ cols, 1 ≤ c.month) :
    ((cols.filter (fun c => decide (c.year = y ∧ c.month ≤ m))).length = m ↔
      ∀ k, 1 ≤ k → k ≤ m → ∃ c ∈ cols, c.year = y ∧ c.month = k) := by
  set L := cols.filter (fun c => decide (c.year = y ∧ c.month ≤ m)) with hL
  have hmemL : ∀ c, c ∈ L ↔ c ∈ cols ∧ c.year = y ∧ c.month ≤ m := by
    intro c
    rw [hL, List.mem_filter]
    simp
  set S := L.map (fun c => c.month) with hS
  have hndS : S.Nodup := by
    have h1 : (L.map (fun c => (c.year, c.month))).Nodup :=
      (((List.filter_sublist cols).map _)).nodup hnd
    have h2 : L.map (fun c => (c.year, c.month)) = S.map (fun n => (y, n)) := by
      rw [hS, List.map_map]
      refine List.map_congr_left (fun c hc => ?_)
      rw [((hmemL c).mp hc).2.1]
      rfl
    rw [h2] at h1
    exact h1.of_map _
  have hSm : ∀ k ∈ S, 1 ≤ k ∧ k ≤ m := by
    intro k hk
    obtain ⟨c, hc, rfl⟩ := List.mem_map.mp hk
    exact ⟨hm c ((hmemL c).mp hc).1, ((hmemL c).mp hc).2.2⟩
  have hkS : ∀ k, k ≤ m → (k ∈ S ↔ ∃ c ∈ cols, c.year = y ∧ c.month = k) := by
    intro k hkm
    constructor
    · intro hk
      obtain ⟨c, hc, rfl⟩ := List.mem_map.mp hk
      exact ⟨c, ((hmemL c).mp hc).1, ((hmemL c).mp hc).2.1, rfl⟩
    · rintro ⟨c, hc, hy, hmo⟩
      exact List.mem_map.mpr ⟨c, (hmemL c).mpr ⟨hc, hy, by omega⟩, hmo⟩
  have hlen : L.length = S.length := (List.length_map _ _).symm
  have hsub : S.toFinset ⊆ Finset.Icc 1 m := by
    intro k hk
    rw [List.mem_toFinset] at hk
    exact Finset.mem_Icc.mpr (hSm k hk)
  have hcard : S.toFinset.card = S.length := List.toFinset_card_of_nodup hndS
  constructor
  · intro hLm k h1k hkm
    have hset : S.toFinset = Finset.Icc 1 m := by
      apply Finset.eq_of_subset_of_card_le hsub
      rw [hcard, ← hlen, hLm, Nat.card_Icc]
      omega
    have hk : k ∈ S.toFinset := by
      rw [hset]
      exact Finset.mem_Icc.mpr ⟨h1k, hkm⟩
    exact (hkS k hkm).mp (List.mem_toFinset.mp hk)
  · intro hall
    have hsub2 : Finset.Icc 1 m ⊆ S.toFinset := by
      intro k hk
      rw [Finset.mem_Icc] at hk
      exact List.mem_toFinset.mpr ((hkS k hk.2).mpr (hall k hk.1 hk.2))
    calc L.length = S.length := hlen
    _ = S.toFinset.card := hcard.symm
    _ = (Finset.Icc 1 m).card := by rw [Finset.Subset.antisymm hsub hsub2]
    _ = m := by rw [Nat.card_Icc]; omega

/-- C2 amended: in ytd mode the resolver takes as current columns all
recognized months of the anchor year up to the anchor month and as previous
columns the analogous months of the year before, and succeeds exactly when the
two lists have equal nonzero length — only lengths are compared, never
calendar-month counterparts; on success, provided the recognized (year, month)
pairs are distinct and months are at least 1, the current list has exactly the
anchor-month many entries iff every month 1..m of the anchor year is
recognized, in which case the equal length forces every month 1..m of the year
before to be recognized as well. -/
theorem c2_ytd_amended (cols : List MonthColumn) (sel : MonthColumn)
    (hnd : (cols.map (fun c => (c.year, c.month))).Nodup)
    (hm : ∀ c ∈ cols, 1 ≤ c.month) :
    (∀ curr prev, ytdResolve cols sel = some (curr, prev) →
      curr = cols.filter (fun c => decide (c.year = sel.year ∧ c.month ≤ sel.month)) ∧
      prev = cols.filter (fun c => decide (c.year = sel.year - 1 ∧ c.month ≤ sel.month)) ∧
      prev.length = curr.length ∧ prev ≠ [] ∧
      (curr.length = sel.month ↔
        ∀ k, 1 ≤ k → k ≤ sel.month →
          (∃ c ∈ cols, c.year = sel.year ∧ c.month = k) ∧
          (∃ c ∈ cols, c.year = sel.year - 1 ∧ c.month = k))) ∧
    (((cols.filter (fun c => decide (c.year = sel.year - 1 ∧ c.month ≤ sel.month))).length ≠
        (cols.filter (fun c => decide (c.year = sel.year ∧ c.month ≤ sel.month))).length ∨
      cols.filter (fun c => decide (c.year = sel.year - 1 ∧ c.month ≤ sel.month)) = []) →
      ytdResolve cols sel = none) := by
  constructor
  · intro curr prev h
    rw [ytdResolve] at h
    by_cases hc : (cols.filter (fun c => decide (c.year = sel.year - 1 ∧ c.month ≤ sel.month))).length =
        (cols.filter (fun c => decide (c.year = sel.year ∧ c.month ≤ sel.month))).length ∧
        cols.filter (fun c => decide (c.year = sel.year - 1 ∧ c.month ≤ sel.month)) ≠ []
    · rw [if_pos hc] at h
      simp only [Option.some.injEq, Prod.mk.injEq] at h
      obtain ⟨hcu, hpr⟩ := h
      subst hcu
      subst hpr
      refine ⟨rfl, rfl, hc.1, hc.2, ?_⟩
      have hcur := count_complete cols sel.year sel.month hnd hm
      have hprev := count_complete cols (sel.year - 1) sel.month hnd hm
      constructor
      · intro hlen k h1 h2
        refine ⟨hcur.mp hlen k h1 h2, ?_⟩
        have hl2 : (cols.filter
            (fun c => decide (c.year = sel.year - 1 ∧ c.month ≤ sel.month))).length =
            sel.month := by
          rw [hc.1, hlen]
        exact hprev.mp hl2 k h1 h2
      · intro hall
        exact hcur.mpr (fun k h1 h2 => (hall k h1 h2).1)
    · rw [if_neg hc] at h
      cases h
  · intro hcond
    rw [ytdResolve]
    rw [if_neg]
    intro hcontra
    rcases hcond with hne | hemp
    · exact hne hcontra.1
    · exact hcontra.2 hemp

/-- Month columns of the C2 counterexample: the anchor year has january and
march, the year before has february and march. -/
def c2cols : List MonthColumn :=
  [⟨"feb 2023", 2, 2023⟩, ⟨"mar 2023", 3, 2023⟩, ⟨"ene 2024", 1, 2024⟩,
    ⟨"mar 2024", 3, 2024⟩]

theorem c2_counterexample :
    ytdResolve c2cols ⟨"mar 2024", 3, 2024⟩ =
      some ([⟨"ene 2024", 1, 2024⟩, ⟨"mar 2024", 3, 2024⟩],
        [⟨"feb 2023", 2, 2023⟩, ⟨"mar 2023", 3, 2023⟩]) ∧
    findMonthByKey c2cols 2023 1 = none := by
  refine ⟨by decide, by decide⟩

/-- Month columns of the C2 witness: january to march of both years. -/
def c2wcols : List MonthColumn :=
  [⟨"ene 2023", 1, 2023⟩, ⟨"feb 2023", 2, 2023⟩, ⟨"mar 2023", 3, 2023⟩,
    ⟨"ene 2024", 1, 2024⟩, ⟨"feb 2024", 2, 2024⟩, ⟨"mar 2024", 3, 2024⟩]

/-- Current columns the C2 witness resolves. -/
def c2wcurr : List MonthColumn :=
  [⟨"ene 2024", 1, 2024⟩, ⟨"feb 2024", 2, 2024⟩, ⟨"mar 2024", 3, 2024⟩]

/-- Previous columns the C2 witness resolves. -/
def c2wprev : List MonthColumn :=
  [⟨"ene 2023", 1, 2023⟩, ⟨"feb 2023", 2, 2023⟩, ⟨"mar 2023", 3, 2023⟩]

theorem c2_witness :
    c2wprev.length = c2wcurr.length ∧ c2wprev ≠ [] ∧
      (c2wcurr.length = 3 ↔
        ∀ k, 1 ≤ k → k ≤ 3 →
          (∃ c ∈ c2wcols, c.year = 2024 ∧ c.month = k) ∧
          (∃ c ∈ c2wcols, c.year = 2023 ∧ c.month = k)) := by
  have h := (c2_ytd_amended c2wcols ⟨"mar 2024", 3, 2024⟩ (by decide) (by decide)).1
    c2wcurr c2wprev (by decide)
  exact ⟨h.2.2.1, h.2.2.2.1, h.2.2.2.2⟩

/-! Helper lemmas for the rolling resolver. -/

theorem findMonthByKey_spec (cols : List MonthColumn) (y mo : Nat) (p : MonthColumn)
    (h : findMonthByKey cols y mo = some p) :
    p ∈ cols ∧ p.year = y ∧ p.month = mo := by
  refine ⟨List.mem_of_find?_eq_some h, ?_⟩
  have hp := List.find?_some h
  simpa using hp

theorem findPrevAll_spec (cols : List MonthColumn) :
    ∀ ws ps, findPrevAll cols ws = some ps →
      ps.length = ws.length ∧
      ∀ (i : Nat) (p : MonthColumn), ps[i]? = some p →
        ∃ mc : MonthColumn, ws[i]? = some mc ∧ p ∈ cols ∧ p.year = mc.year - 1 ∧
          p.month = mc.month := by
  intro ws
  induction ws with
  | nil =>
    intro ps h
    rw [findPrevAll] at h
    simp only [Option.some.injEq] at h
    subst h
    exact ⟨rfl, fun i p hip => by simp at hip⟩
  | cons mc rest ih =>
    intro ps h
    rw [findPrevAll] at h
    cases hf : findMonthByKey cols (mc.year - 1) mc.month with
    | none =>
      cases hr : findPrevAll cols rest with
      | none => rw [hf, hr] at h; cases h
      | some ps' => rw [hf, hr] at h; cases h
    | some p =>
      cases hr : findPrevAll cols rest with
      | none =>
        rw [hf, hr] at h
        cases h
      | some ps' =>
        rw [hf, hr] at h
        simp only [Option.some.injEq] at h
        subst h
        obtain ⟨hlen, hind⟩ := ih ps' hr
        refine ⟨by simp [hlen], ?_⟩
        intro i q hq
        cases i with
        | zero =>
          simp only [List.getElem?_cons_zero, Option.some.injEq] at hq
          obtain rfl := hq
          exact ⟨mc, by simp, (findMonthByKey_spec cols _ _ _ hf).1,
            (findMonthByKey_spec cols _ _ _ hf).2.1,
            (findMonthByKey_spec cols _ _ _ hf).2.2⟩
        | succ n =>
          simp only [List.getElem?_cons_succ] at hq
          obtain ⟨mc', hmc', hrest⟩ := hind n q hq
          exact ⟨mc', by simpa using hmc', hrest⟩

theorem findPrevAll_none (cols : List MonthColumn) :
    ∀ ws mc, mc ∈ ws → findMonthByKey cols (mc.year - 1) mc.month = none →
      findPrevAll cols ws = none := by
  intro ws
  induction ws with
  | nil =>
    intro mc h
    simp at h
  | cons a rest ih =>
    intro mc hmem hnone
    rw [findPrevAll]
    rcases List.mem_cons.mp hmem with rfl | hmem'
    · rw [hnone]
    · rw [ih mc hmem' hnone]
      rcases findMonthByKey cols (a.year - 1) a.month with _ | _ <;> rfl

/-- C3: in rolling mode with window N and the anchor at position idx of the
sorted list, the current window is exactly the N consecutive recognized months
ending at the anchor, taken by position; resolution fails whenever fewer than
N months precede the anchor in position (the explicit length check catches all
but the boundary case, where the earliest window month can have no prior-year
match, since such a match would have to sort before the head); it fails
whenever any window month lacks a recognized month of the same calendar month
one year back; and on success the previous columns are exactly those
prior-year matches, in window order. -/
theorem c3_rolling (cols : List MonthColumn) (window idx : Nat)
    (hsort : cols.Pairwise (fun a b => keyOf a ≤ keyOf b))
    (hy : ∀ c ∈ cols, 1 ≤ c.year)
    (hw : 1 ≤ window) (hidx : idx < cols.length) :
    (idx < window → rollingResolve cols window idx = none) ∧
    (∀ curr prev, rollingResolve cols window idx = some (curr, prev) →
      curr = rollingWindow cols window idx ∧ curr.length = window ∧
      prev.length = window ∧
      ∀ (i : Nat) (p : MonthColumn), prev[i]? = some p →
        ∃ mc : MonthColumn, curr[i]? = some mc ∧ p ∈ cols ∧ p.year = mc.year - 1 ∧
          p.month = mc.month) ∧
    (∀ mc ∈ rollingWindow cols window idx,
      findMonthByKey cols (mc.year - 1) mc.month = none →
      rollingResolve cols window idx = none) := by
  refine ⟨fun hlt => ?_, fun curr prev h => ?_, fun mc hmc hnone => ?_⟩
  · by_cases h1 : idx + 1 < window
    · rw [rollingResolve, if_pos h1]
    · have hwin : idx + 1 = window := by omega
      rw [rollingResolve, if_neg h1]
      have hrw : rollingWindow cols window idx = cols.take (idx + 1) := by
        rw [rollingWindow, show idx + 1 - window = 0 from by omega, List.drop_zero]
      obtain ⟨c0, cs, rfl⟩ : ∃ c0 cs, cols = c0 :: cs := by
        cases cols with
        | nil => simp at hidx
        | cons a l => exact ⟨a, l, rfl⟩
      have hhead : rollingWindow (c0 :: cs) window idx = c0 :: cs.take idx := by
        rw [hrw, List.take_succ_cons]
      have hnone : findMonthByKey (c0 :: cs) (c0.year - 1) c0.month = none := by
        cases hfind : findMonthByKey (c0 :: cs) (c0.year - 1) c0.month with
        | none => rfl
        | some p =>
          exfalso
          obtain ⟨hpmem, hpy, hpm⟩ := findMonthByKey_spec _ _ _ _ hfind
          have hy0 : 1 ≤ c0.year := hy c0 (List.mem_cons_self _ _)
          have hkey : keyOf p + 12 = keyOf c0 := by
            rw [keyOf, keyOf, hpy, hpm]
            omega
          rcases List.mem_cons.mp hpmem with rfl | hmem'
          · omega
          · have hle := List.rel_of_pairwise_cons hsort hmem'
            omega
      have hfpa : findPrevAll (c0 :: cs) (c0 :: cs.take idx) = none :=
        findPrevAll_none _ _ c0 (List.mem_cons_self _ _) hnone
      rw [hhead, hfpa]
  · rw [rollingResolve] at h
    by_cases h1 : idx + 1 < window
    · rw [if_pos h1] at h
      cases h
    · rw [if_neg h1] at h
      cases hf : findPrevAll cols (rollingWindow cols window idx) with
      | none =>
        rw [hf] at h
        cases h
      | some ps =>
        rw [hf] at h
        simp only [Option.some.injEq, Prod.mk.injEq] at h
        obtain ⟨hcu, hpr⟩ := h
        subst hcu
        subst hpr
        obtain ⟨hlen, hmatch⟩ := findPrevAll_spec cols _ _ hf
        have hwl : (rollingWindow cols window idx).length = window := by
          rw [rollingWindow, List.length_drop, List.length_take]
          rw [Nat.min_eq_left (by omega)]
          omega
        exact ⟨rfl, hwl, by rw [hlen, hwl], hmatch⟩
  · rw [rollingResolve]
    by_cases h1 : idx + 1 < window
    · rw [if_pos h1]
    · rw [if_neg h1, findPrevAll_none cols _ mc hmc hnone]

/-- Month columns of the C3 witness: january-march of two consecutive years. -/
def c3wcols : List MonthColumn :=
  [⟨"ene 2023", 1, 2023⟩, ⟨"feb 2023", 2, 2023⟩, ⟨"mar 2023", 3, 2023⟩,
    ⟨"ene 2024", 1, 2024⟩, ⟨"feb 2024", 2, 2024⟩, ⟨"mar 2024", 3, 2024⟩]

/-- Current window the C3 witness resolves. -/
def c3wcurr : List MonthColumn :=
  [⟨"ene 2024", 1, 2024⟩, ⟨"feb 2024", 2, 2024⟩, ⟨"mar 2024", 3, 2024⟩]

/-- Previous window the C3 witness resolves. -/
def c3wprev : List MonthColumn :=
  [⟨"ene 2023", 1, 2023⟩, ⟨"feb 2023", 2, 2023⟩, ⟨"mar 2023", 3, 2023⟩]

theorem c3_witness :
    rollingResolve c3wcols 3 5 = some (c3wcurr, c3wprev) ∧ c3wcurr.length = 3 := by
  have h := c3_rolling c3wcols 3 5 (by decide) (by decide) (by decide) (by decide)
  have hres : rollingResolve c3wcols 3 5 = some (c3wcurr, c3wprev) := by decide
  exact ⟨hres, (h.2.1 c3wcurr c3wprev hres).2.1⟩

/-- A found element sits at some position of the list. -/
theorem find?_getElem {α : Type} (p : α → Bool) :
    ∀ (l : List α) (a : α), l.find? p = some a → ∃ i : Nat, l[i]? = some a := by
  intro l
  induction l with
  | nil =>
    intro a h
    simp at h
  | cons x xs ih =>
    intro a h
    cases hpx : p x with
    | true =>
      rw [List.find?_cons_of_pos _ hpx] at h
      exact ⟨0, by simpa using h⟩
    | false =>
      rw [List.find?_cons_of_neg _ (by simp [hpx])] at h
      obtain ⟨i, hi⟩ := ih a h
      exact ⟨i + 1, by simpa using hi⟩

theorem round1_hundred : round1 (100 : ℚ) = 100 := by
  norm_num [round1]

/-- C8: the cohort output is sorted by cohort key ascending; every cohort's
base month is the first recognized column carrying the cohort key, the
revenue-percentage entry at the base month is exactly 100 whenever the base
revenue is strictly positive, and every activity or revenue entry at a month
strictly before the base month is null.  (The all-numeric-cells hypothesis
marks the embedding's fidelity boundary: in the source a non-numeric cell
poisons the cohort sums as NaN, making the base revenue compare false against
0 rather than coercing to 0.) -/
theorem c8_cohorts (cols : List MonthColumn) (rows : List DataRow)
    (hnum : ∀ r ∈ rows, ∀ pc ∈ r.cells, pc.2 ≠ none) :
    List.Sorted (keyLe CohortRow.cohort) (cohortsSorted cols rows) ∧
    ∀ e ∈ cohortsSorted cols rows, ∃ (base : MonthColumn) (i : Nat),
      cohortBase cols e.cohort = some base ∧ cols[i]? = some base ∧
      (0 < cohortBaseRev cols rows e.cohort → e.revenue[i]? = some (some 100)) ∧
      (∀ (j : Nat) (mc : MonthColumn), cols[j]? = some mc → keyOf mc < keyOf base →
        e.revenue[j]? = some none ∧ e.active[j]? = some none) := by
  constructor
  · exact List.sorted_insertionSort _ _
  · intro e he
    rw [cohortsSorted, List.mem_insertionSort, cohortRowsOf] at he
    obtain ⟨k, -, hke⟩ := List.mem_filterMap.mp he
    obtain ⟨base, hbase, hbe⟩ := Option.map_eq_some'.mp hke
    subst hbe
    obtain ⟨i, hi⟩ := find?_getElem _ cols base hbase
    refine ⟨base, i, hbase, hi, fun hpos => ?_, fun j mc hj hlt => ⟨?_, ?_⟩⟩
    · show (cohortRevenueSeq cols base (cohortMembers cols rows k))[i]? = some (some 100)
      rw [cohortRevenueSeq, List.getElem?_map, hi]
      simp only [Option.map_some']
      rw [if_neg (lt_irrefl _)]
      have hpos' : 0 <
          ((cohortMembers cols rows k).map (fun r => cellValue r base.col)).sum := by
        rw [cohortBaseRev, hbase] at hpos
        exact hpos
      rw [if_pos hpos', div_self (ne_of_gt hpos'), one_mul, round1_hundred]
    · show (cohortRevenueSeq cols base (cohortMembers cols rows k))[j]? = some none
      rw [cohortRevenueSeq, List.getElem?_map, hj]
      simp only [Option.map_some']
      rw [if_pos hlt]
    · show (cohortActiveSeq cols base (cohortMembers cols rows k))[j]? = some none
      rw [cohortActiveSeq, List.getElem?_map, hj]
      simp only [Option.map_some']
      rw [if_pos hlt]

/-- Month column of the C8 witness. -/
def c8wcols : List MonthColumn := [⟨"ene 2023", 1, 2023⟩]

/-- Rows of the C8 witness: one account with revenue 50 in the only month. -/
def c8wrows : List DataRow := [{ cliente := "H", cells := [("ene 2023", some 50)] }]

theorem c8_witness :
    (∀ r ∈ c8wrows, ∀ pc ∈ r.cells, pc.2 ≠ none) ∧
    (List.Sorted (keyLe CohortRow.cohort) (cohortsSorted c8wcols c8wrows) ∧
      ∀ e ∈ cohortsSorted c8wcols c8wrows, ∃ (base : MonthColumn) (i : Nat),
        cohortBase c8wcols e.cohort = some base ∧ c8wcols[i]? = some base ∧
        (0 < cohortBaseRev c8wcols c8wrows e.cohort →
          e.revenue[i]? = some (some 100)) ∧
        (∀ (j : Nat) (mc : MonthColumn), c8wcols[j]? = some mc →
          keyOf mc < keyOf base →
          e.revenue[j]? = some none ∧ e.active[j]? = some none)) :=
  ⟨by decide, c8_cohorts c8wcols c8wrows (by decide)⟩

end YoY
